import Mathlib

/-!
Verification of the Ring Buffer Access Manager (RBAM) of `src/src/xyz.h`.

The header `xyz.h` declares the RBAM state record (`xyz_rbam`, lines 174-181)
and the eight operations (`xyz_rbam_init`, `xyz_rbam_next`, `xyz_rbam_prev`,
`xyz_rbam_is_full`, `xyz_rbam_write`, `xyz_rbam_is_empty`, `xyz_rbam_read`,
`xyz_rbam_drain`, lines 184-191), but the repository contains no function
bodies for them.  The operations are therefore modelled here from the
specification, using the counter-based empty/full disambiguation rule: the
spec's own testable properties (all `dim` slots usable, `dim` consecutive
writes succeed, the `dim = 4` concrete scenario) force the counter-based
design over the one-slot-sacrifice design, resolving the open question the
spec raises in its design notes.

Machine integers: the C fields are `u32` (uint32_t).  We model values as
`Nat`; where 32-bit representation matters (the `XYZ_ERR` return value, claim
C9) the wrap at `2^32` is made explicit.
-/

/-- `XYZ_OK` from `src/src/xyz.h` line 53: success return code `0`. -/
def XYZ_OK : Nat := 0

/-- `XYZ_ERR` from `src/src/xyz.h` line 54: error code `-1`, as a
mathematical integer. -/
def XYZ_ERR : Int := -1

/-- The value of `XYZ_ERR` when returned through a `u32` in C: `-1`
converted to `uint32_t`, i.e. `-1` reduced modulo `2^32`. -/
def xyzErrAsU32 : Nat := ((XYZ_ERR : Int) % (2 ^ 32 : Int)).toNat

/-- The RBAM state record, from `src/src/xyz.h` lines 174-181.  All six
fields are `u32` in C; they are modelled as `Nat` (every reachable value is
below `2^32` because `dim` is a `u32` and all indices stay below `dim`). -/
structure xyz_rbam where
  /-- Dimension (total number) of elements in the buffer. -/
  dim : Nat
  /-- Index for reading. -/
  rd : Nat
  /-- Index for writing. -/
  wr : Nat
  /-- Next write index. -/
  next : Nat
  /-- Number of used elements in the buffer. -/
  used : Nat
  /-- Number of free elements in the buffer. -/
  free : Nat
  deriving Repr, DecidableEq

/-- Modelled from the spec: the body of `xyz_rbam_init` (declared at
`src/src/xyz.h` line 184) is missing from the repository.  Per the spec,
`init(dim)` resets `rd = wr = next = 0`, `used = 0`, `free = dim`, and fails
(returns an error indicator) if `dim == 0`.  Failure is modelled as `none`. -/
def xyz_rbam_init (dim : Nat) : Option xyz_rbam :=
  if dim = 0 then none
  else some { dim := dim, rd := 0, wr := 0, next := 0, used := 0, free := dim }

/-- Modelled from the spec: the body of `xyz_rbam_next` (declared at
`src/src/xyz.h` line 185) is missing from the repository.  Per the spec,
`next(index)` returns `(index + 1) mod dim`; it is a pure function with no
state mutation, so it is modelled as returning only the index. -/
def xyz_rbam_next (rbam : xyz_rbam) (index : Nat) : Nat :=
  (index + 1) % rbam.dim

/-- Modelled from the spec: the body of `xyz_rbam_prev` (declared at
`src/src/xyz.h` line 186) is missing from the repository.  Per the spec,
`prev(index)` returns `(index - 1 + dim) mod dim`; pure, no state mutation.
The subtraction is modelled as `(index + dim) - 1` in `Nat`, which agrees
with the integer value `index - 1 + dim` for every `index` once `dim ≥ 1`. -/
def xyz_rbam_prev (rbam : xyz_rbam) (index : Nat) : Nat :=
  (index + rbam.dim - 1) % rbam.dim

/-- Modelled from the spec: the body of `xyz_rbam_is_full` (declared at
`src/src/xyz.h` line 187) is missing from the repository.  Counter-based
rule: the buffer is full exactly when no free slot remains. -/
def xyz_rbam_is_full (rbam : xyz_rbam) : Bool :=
  rbam.free == 0

/-- Modelled from the spec: the body of `xyz_rbam_is_empty` (declared at
`src/src/xyz.h` line 189) is missing from the repository.  Counter-based
rule: the buffer is empty exactly when no committed-but-unread write exists. -/
def xyz_rbam_is_empty (rbam : xyz_rbam) : Bool :=
  rbam.used == 0

/-- Modelled from the spec: the body of `xyz_rbam_write` (declared at
`src/src/xyz.h` line 188) is missing from the repository.  Per the spec,
`write()` refuses (error indicator, state untouched) when the buffer is
full; otherwise it commits the slot at the current `next` position as `wr`,
advances `next` to `next(next)`, increments `used`, decrements `free`, and
returns the committed slot index. -/
def xyz_rbam_write (rbam : xyz_rbam) : Option Nat × xyz_rbam :=
  if xyz_rbam_is_full rbam then (none, rbam)
  else
    (some rbam.next,
      { rbam with
          wr := rbam.next
          next := xyz_rbam_next rbam rbam.next
          used := rbam.used + 1
          free := rbam.free - 1 })

/-- Modelled from the spec: the body of `xyz_rbam_read` (declared at
`src/src/xyz.h` line 190) is missing from the repository.  Per the spec,
`read()` refuses (error indicator, state untouched) when the buffer is
empty; otherwise it returns the slot index at `rd`, advances `rd` to
`next(rd)`, decrements `used`, increments `free`. -/
def xyz_rbam_read (rbam : xyz_rbam) : Option Nat × xyz_rbam :=
  if xyz_rbam_is_empty rbam then (none, rbam)
  else
    (some rbam.rd,
      { rbam with
          rd := xyz_rbam_next rbam rbam.rd
          used := rbam.used - 1
          free := rbam.free + 1 })

/-- Modelled from the spec: the body of `xyz_rbam_drain` (declared at
`src/src/xyz.h` line 191) is missing from the repository.  Per the spec,
`drain()` advances `rd` all the way to the current write frontier in one
call, discarding all pending unread data, and returns the number of slots
discarded. -/
def xyz_rbam_drain (rbam : xyz_rbam) : Nat × xyz_rbam :=
  (rbam.used, { rbam with rd := rbam.next, used := 0, free := rbam.dim })

/-- The index-bounds invariant of the spec: `0 ≤ rd < dim`, `0 ≤ wr < dim`,
`0 ≤ next < dim` (the lower bounds are automatic for `Nat`). -/
def rbamBounds (rbam : xyz_rbam) : Prop :=
  rbam.rd < rbam.dim ∧ rbam.wr < rbam.dim ∧ rbam.next < rbam.dim

instance (rbam : xyz_rbam) : Decidable (rbamBounds rbam) := by
  unfold rbamBounds; infer_instance

/-- Full reachable-state invariant of the RBAM: positive dimension, index
bounds, counter coherence `used + free = dim`, and the geometric relation
tying the write frontier to the read index and the fill count. -/
def rbamInv (rbam : xyz_rbam) : Prop :=
  0 < rbam.dim ∧ rbamBounds rbam ∧
    rbam.used + rbam.free = rbam.dim ∧
    rbam.next = (rbam.rd + rbam.used) % rbam.dim

instance (rbam : xyz_rbam) : Decidable (rbamInv rbam) := by
  unfold rbamInv; infer_instance

/-- Iterated writes: the state after `k` consecutive `write()` calls. -/
def iterWrites (rbam : xyz_rbam) : Nat → xyz_rbam
  | 0 => rbam
  | k + 1 => (xyz_rbam_write (iterWrites rbam k)).2

/-- Iterated reads: the state after `k` consecutive `read()` calls. -/
def iterReads (rbam : xyz_rbam) : Nat → xyz_rbam
  | 0 => rbam
  | k + 1 => (xyz_rbam_read (iterReads rbam k)).2

/-- The freshly initialized state for a given dimension. -/
def freshRbam (dim : Nat) : xyz_rbam :=
  { dim := dim, rd := 0, wr := 0, next := 0, used := 0, free := dim }

/-- The state after `k ≤ dim` consecutive writes from a fresh state. -/
def afterWrites (dim k : Nat) : xyz_rbam :=
  { dim := dim, rd := 0, wr := k - 1, next := k % dim, used := k,
    free := dim - k }

lemma init_eq_fresh {dim : Nat} (h : 0 < dim) :
    xyz_rbam_init dim = some (freshRbam dim) := by
  unfold xyz_rbam_init freshRbam
  simp [Nat.pos_iff_ne_zero.mp h]

lemma iterWrites_fresh (dim : Nat) (h : 0 < dim) :
    ∀ k, k ≤ dim → iterWrites (freshRbam dim) k = afterWrites dim k := by
  intro k
  induction k with
  | zero =>
    intro _
    unfold iterWrites freshRbam afterWrites
    simp [Nat.mod_eq_of_lt h]
  | succ n ih =>
    intro hle
    have hn : n ≤ dim := Nat.le_of_succ_le hle
    have hnlt : n < dim := Nat.lt_of_succ_le hle
    unfold iterWrites
    rw [ih hn]
    unfold xyz_rbam_write xyz_rbam_is_full afterWrites xyz_rbam_next
    have hfree : dim - n ≠ 0 := Nat.sub_ne_zero_of_lt hnlt
    simp only [beq_iff_eq, hfree, if_false]
    have hmod : n % dim = n := Nat.mod_eq_of_lt hnlt
    simp only [hmod, Nat.add_sub_cancel, Nat.sub_sub]

lemma write_result_fresh (dim : Nat) (h : 0 < dim) :
    ∀ k, k < dim →
      (xyz_rbam_write (iterWrites (freshRbam dim) k)).1 = some k := by
  intro k hk
  rw [iterWrites_fresh dim h k (Nat.le_of_lt hk)]
  unfold xyz_rbam_write xyz_rbam_is_full afterWrites
  have hfree : dim - k ≠ 0 := Nat.sub_ne_zero_of_lt hk
  simp [hfree, Nat.mod_eq_of_lt hk]

/-- The state after filling a fresh buffer with `dim` writes and then doing
`j ≤ dim` consecutive reads. -/
def afterReadsFull (dim j : Nat) : xyz_rbam :=
  { dim := dim, rd := j % dim, wr := dim - 1, next := 0, used := dim - j,
    free := j }

lemma iterReads_full (dim : Nat) :
    ∀ j, j ≤ dim →
      iterReads (afterWrites dim dim) j = afterReadsFull dim j := by
  intro j
  induction j with
  | zero =>
    intro _
    unfold iterReads afterWrites afterReadsFull
    simp [Nat.mod_self]
  | succ n ih =>
    intro hle
    have hn : n ≤ dim := Nat.le_of_succ_le hle
    have hnlt : n < dim := Nat.lt_of_succ_le hle
    unfold iterReads
    rw [ih hn]
    unfold xyz_rbam_read xyz_rbam_is_empty afterReadsFull xyz_rbam_next
    have hused : dim - n ≠ 0 := Nat.sub_ne_zero_of_lt hnlt
    simp only [beq_iff_eq, hused, if_false]
    have hmod : n % dim = n := Nat.mod_eq_of_lt hnlt
    simp only [hmod, Nat.sub_sub]

lemma read_result_full (dim : Nat) :
    ∀ j, j < dim →
      (xyz_rbam_read (iterReads (afterWrites dim dim) j)).1 = some j := by
  intro j hj
  rw [iterReads_full dim j (Nat.le_of_lt hj)]
  unfold xyz_rbam_read xyz_rbam_is_empty afterReadsFull
  have hused : dim - j ≠ 0 := Nat.sub_ne_zero_of_lt hj
  simp [hused, Nat.mod_eq_of_lt hj]

/-- **C1.** For every `dim ≥ 1`, starting from a freshly initialized RBAM, a
sequence of `dim` consecutive `write()` calls with no interleaved `read()`
all succeed, returning the slot indices `0, 1, ..., dim-1` in that order;
after the `dim`-th call `is_full()` returns `true`, and the `(dim+1)`-th
`write()` fails with the full-buffer indicator and leaves the state (hence
every committed slot) unchanged. -/
theorem rbam_dim_writes_fill (dim : Nat) (h : 1 ≤ dim) (r0 : xyz_rbam)
    (hinit : xyz_rbam_init dim = some r0) :
    (∀ k, k < dim → (xyz_rbam_write (iterWrites r0 k)).1 = some k) ∧
      xyz_rbam_is_full (iterWrites r0 dim) = true ∧
      xyz_rbam_write (iterWrites r0 dim) = (none, iterWrites r0 dim) := by
  have hr0 : r0 = freshRbam dim := by
    rw [init_eq_fresh h] at hinit
    exact (Option.some.injEq _ _ ▸ hinit.symm : _)
  subst hr0
  refine ⟨fun k hk => write_result_fresh dim h k hk, ?_, ?_⟩
  · rw [iterWrites_fresh dim h dim (Nat.le_refl dim)]
    unfold xyz_rbam_is_full afterWrites
    simp
  · rw [iterWrites_fresh dim h dim (Nat.le_refl dim)]
    unfold xyz_rbam_write xyz_rbam_is_full afterWrites
    simp

/-- Witness for C1 at the concrete dimension `dim = 2`. -/
theorem rbam_dim_writes_fill_witness :
    (∀ k, k < 2 → (xyz_rbam_write (iterWrites (freshRbam 2) k)).1 = some k) ∧
      xyz_rbam_is_full (iterWrites (freshRbam 2) 2) = true ∧
      xyz_rbam_write (iterWrites (freshRbam 2) 2) =
        (none, iterWrites (freshRbam 2) 2) :=
  rbam_dim_writes_fill 2 (by decide) (freshRbam 2) (by decide)

/-- **C2.** For every `dim ≥ 1`, after a fresh RBAM has been filled by `dim`
successful writes, `dim` consecutive `read()` calls all succeed and return
the slot indices in exactly the order they were written (the `j`-th read
returns precisely what the `j`-th write returned); after the `dim`-th read
`is_empty()` is `true` and the next `read()` fails leaving the state
unchanged.  In addition, the spec's concrete `dim = 4` scenario holds:
4 writes return `0,1,2,3`, the 5th write fails, 2 reads return `0,1` leaving
2 used and 2 free, 2 wrapped writes return `0,1`, the buffer is full again,
4 reads return `2,3,0,1`, and the buffer is then empty. -/
theorem rbam_fifo_reads (dim : Nat) (h : 1 ≤ dim) (r0 : xyz_rbam)
    (hinit : xyz_rbam_init dim = some r0) :
    ((∀ j, j < dim →
        (xyz_rbam_read (iterReads (iterWrites r0 dim) j)).1 = some j ∧
        (xyz_rbam_read (iterReads (iterWrites r0 dim) j)).1 =
          (xyz_rbam_write (iterWrites r0 j)).1) ∧
      xyz_rbam_is_empty (iterReads (iterWrites r0 dim) dim) = true ∧
      xyz_rbam_read (iterReads (iterWrites r0 dim) dim) =
        (none, iterReads (iterWrites r0 dim) dim)) ∧
    ((∀ k, k < 4 →
        (xyz_rbam_write (iterWrites (freshRbam 4) k)).1 = some k) ∧
      (xyz_rbam_write (iterWrites (freshRbam 4) 4)).1 = none ∧
      (xyz_rbam_read (iterWrites (freshRbam 4) 4)).1 = some 0 ∧
      (xyz_rbam_read (iterReads (iterWrites (freshRbam 4) 4) 1)).1 = some 1 ∧
      (iterReads (iterWrites (freshRbam 4) 4) 2).used = 2 ∧
      (iterReads (iterWrites (freshRbam 4) 4) 2).free = 2 ∧
      (xyz_rbam_write (iterReads (iterWrites (freshRbam 4) 4) 2)).1 = some 0 ∧
      (xyz_rbam_write
        (iterWrites (iterReads (iterWrites (freshRbam 4) 4) 2) 1)).1 =
          some 1 ∧
      xyz_rbam_is_full
        (iterWrites (iterReads (iterWrites (freshRbam 4) 4) 2) 2) = true ∧
      (xyz_rbam_read
        (iterWrites (iterReads (iterWrites (freshRbam 4) 4) 2) 2)).1 =
          some 2 ∧
      (xyz_rbam_read (iterReads
        (iterWrites (iterReads (iterWrites (freshRbam 4) 4) 2) 2) 1)).1 =
          some 3 ∧
      (xyz_rbam_read (iterReads
        (iterWrites (iterReads (iterWrites (freshRbam 4) 4) 2) 2) 2)).1 =
          some 0 ∧
      (xyz_rbam_read (iterReads
        (iterWrites (iterReads (iterWrites (freshRbam 4) 4) 2) 2) 3)).1 =
          some 1 ∧
      xyz_rbam_is_empty
        (iterReads
          (iterWrites (iterReads (iterWrites (freshRbam 4) 4) 2) 2) 4) =
            true) := by
  have hr0 : r0 = freshRbam dim := by
    rw [init_eq_fresh h] at hinit
    exact (Option.some.injEq _ _ ▸ hinit.symm : _)
  subst hr0
  have hfull : iterWrites (freshRbam dim) dim = afterWrites dim dim :=
    iterWrites_fresh dim h dim (Nat.le_refl dim)
  constructor
  · refine ⟨fun j hj => ?_, ?_, ?_⟩
    · constructor
      · rw [hfull]; exact read_result_full dim j hj
      · rw [hfull, read_result_full dim j hj,
          write_result_fresh dim h j hj]
    · rw [hfull, iterReads_full dim dim (Nat.le_refl dim)]
      unfold xyz_rbam_is_empty afterReadsFull
      simp
    · rw [hfull, iterReads_full dim dim (Nat.le_refl dim)]
      unfold xyz_rbam_read xyz_rbam_is_empty afterReadsFull
      simp
  · refine ⟨fun k hk => ?_, ?_⟩
    · interval_cases k <;> decide
    · decide

/-- Witness for C2 at the concrete dimension `dim = 3`. -/
theorem rbam_fifo_reads_witness :
    ((∀ j, j < 3 →
        (xyz_rbam_read
          (iterReads (iterWrites (freshRbam 3) 3) j)).1 = some j ∧
        (xyz_rbam_read (iterReads (iterWrites (freshRbam 3) 3) j)).1 =
          (xyz_rbam_write (iterWrites (freshRbam 3) j)).1) ∧
      xyz_rbam_is_empty (iterReads (iterWrites (freshRbam 3) 3) 3) = true ∧
      xyz_rbam_read (iterReads (iterWrites (freshRbam 3) 3) 3) =
        (none, iterReads (iterWrites (freshRbam 3) 3) 3)) ∧
    ((∀ k, k < 4 →
        (xyz_rbam_write (iterWrites (freshRbam 4) k)).1 = some k) ∧
      (xyz_rbam_write (iterWrites (freshRbam 4) 4)).1 = none ∧
      (xyz_rbam_read (iterWrites (freshRbam 4) 4)).1 = some 0 ∧
      (xyz_rbam_read (iterReads (iterWrites (freshRbam 4) 4) 1)).1 = some 1 ∧
      (iterReads (iterWrites (freshRbam 4) 4) 2).used = 2 ∧
      (iterReads (iterWrites (freshRbam 4) 4) 2).free = 2 ∧
      (xyz_rbam_write (iterReads (iterWrites (freshRbam 4) 4) 2)).1 = some 0 ∧
      (xyz_rbam_write
        (iterWrites (iterReads (iterWrites (freshRbam 4) 4) 2) 1)).1 =
          some 1 ∧
      xyz_rbam_is_full
        (iterWrites (iterReads (iterWrites (freshRbam 4) 4) 2) 2) = true ∧
      (xyz_rbam_read
        (iterWrites (iterReads (iterWrites (freshRbam 4) 4) 2) 2)).1 =
          some 2 ∧
      (xyz_rbam_read (iterReads
        (iterWrites (iterReads (iterWrites (freshRbam 4) 4) 2) 2) 1)).1 =
          some 3 ∧
      (xyz_rbam_read (iterReads
        (iterWrites (iterReads (iterWrites (freshRbam 4) 4) 2) 2) 2)).1 =
          some 0 ∧
      (xyz_rbam_read (iterReads
        (iterWrites (iterReads (iterWrites (freshRbam 4) 4) 2) 2) 3)).1 =
          some 1 ∧
      xyz_rbam_is_empty
        (iterReads
          (iterWrites (iterReads (iterWrites (freshRbam 4) 4) 2) 2) 4) =
            true) :=
  rbam_fifo_reads 3 (by decide) (freshRbam 3) (by decide)

/-- `rbamInv` holds for every freshly initialized state. -/
lemma rbamInv_init (dim : Nat) (r0 : xyz_rbam)
    (hinit : xyz_rbam_init dim = some r0) : rbamInv r0 := by
  unfold xyz_rbam_init at hinit
  by_cases h : dim = 0
  · simp [h] at hinit
  · simp [h] at hinit
    subst hinit
    have hd : 0 < dim := Nat.pos_of_ne_zero h
    exact ⟨hd, ⟨hd, hd, hd⟩, by show 0 + dim = dim; omega, by simp⟩

/-- `rbamInv` is preserved by `write`, also when it fails. -/
lemma rbamInv_write (r : xyz_rbam) (hinv : rbamInv r) :
    rbamInv (xyz_rbam_write r).2 := by
  obtain ⟨hd, ⟨hrd, hwr, hnx⟩, hsum, hgeo⟩ := hinv
  unfold xyz_rbam_write xyz_rbam_is_full xyz_rbam_next
  by_cases hfull : r.free = 0
  · simp only [hfull, beq_self_eq_true, if_true]
    exact ⟨hd, ⟨hrd, hwr, hnx⟩, hsum, hgeo⟩
  · simp only [beq_iff_eq, hfull, if_false]
    refine ⟨hd, ⟨hrd, hnx, Nat.mod_lt _ hd⟩,
      by show r.used + 1 + (r.free - 1) = r.dim; omega, ?_⟩
    show (r.next + 1) % r.dim = (r.rd + (r.used + 1)) % r.dim
    rw [hgeo, Nat.mod_add_mod, Nat.add_assoc]

/-- `rbamInv` is preserved by `read`, also when it fails. -/
lemma rbamInv_read (r : xyz_rbam) (hinv : rbamInv r) :
    rbamInv (xyz_rbam_read r).2 := by
  obtain ⟨hd, ⟨hrd, hwr, hnx⟩, hsum, hgeo⟩ := hinv
  unfold xyz_rbam_read xyz_rbam_is_empty xyz_rbam_next
  by_cases hempty : r.used = 0
  · simp only [hempty, beq_self_eq_true, if_true]
    exact ⟨hd, ⟨hrd, hwr, hnx⟩, hsum, hgeo⟩
  · simp only [beq_iff_eq, hempty, if_false]
    refine ⟨hd, ⟨Nat.mod_lt _ hd, hwr, hnx⟩,
      by show r.used - 1 + (r.free + 1) = r.dim; omega, ?_⟩
    show r.next = ((r.rd + 1) % r.dim + (r.used - 1)) % r.dim
    rw [Nat.mod_add_mod, hgeo]
    congr 1
    omega

/-- `rbamInv` is preserved by `drain`. -/
lemma rbamInv_drain (r : xyz_rbam) (hinv : rbamInv r) :
    rbamInv (xyz_rbam_drain r).2 := by
  obtain ⟨hd, ⟨hrd, hwr, hnx⟩, hsum, hgeo⟩ := hinv
  unfold xyz_rbam_drain
  exact ⟨hd, ⟨hnx, hwr, hnx⟩,
    by show (0 : Nat) + r.dim = r.dim; omega,
    by show r.next = (r.next + 0) % r.dim; simp [Nat.mod_eq_of_lt hnx]⟩

/-- **C3.** For every RBAM state satisfying the spec's index-bounds
invariant `0 ≤ rd < dim`, `0 ≤ wr < dim`, `0 ≤ next < dim`, every operation
preserves the invariant whether it succeeds or fails: `init` establishes it,
and `write`, `read` and `drain` keep the dimension and the bounds (the
remaining operations `is_full`, `is_empty`, `next` and `prev` are modelled
as pure functions that return no state at all, so they preserve it
trivially). -/
theorem rbam_bounds_all_ops (r : xyz_rbam) (hdim : 0 < r.dim)
    (hb : rbamBounds r) :
    (∀ dim r0, xyz_rbam_init dim = some r0 → 0 < r0.dim ∧ rbamBounds r0) ∧
    ((xyz_rbam_write r).2.dim = r.dim ∧ rbamBounds (xyz_rbam_write r).2) ∧
    ((xyz_rbam_read r).2.dim = r.dim ∧ rbamBounds (xyz_rbam_read r).2) ∧
    ((xyz_rbam_drain r).2.dim = r.dim ∧ rbamBounds (xyz_rbam_drain r).2) := by
  obtain ⟨hrd, hwr, hnx⟩ := hb
  refine ⟨?_, ?_, ?_, ?_⟩
  · intro dim r0 hinit
    obtain ⟨hd, hb0, -, -⟩ := rbamInv_init dim r0 hinit
    exact ⟨hd, hb0⟩
  · unfold xyz_rbam_write xyz_rbam_is_full xyz_rbam_next
    by_cases hfull : r.free = 0
    · simp only [hfull, beq_self_eq_true, if_true]
      exact ⟨trivial, hrd, hwr, hnx⟩
    · simp only [beq_iff_eq, hfull, if_false]
      exact ⟨trivial, hrd, hnx, Nat.mod_lt _ hdim⟩
  · unfold xyz_rbam_read xyz_rbam_is_empty xyz_rbam_next
    by_cases hempty : r.used = 0
    · simp only [hempty, beq_self_eq_true, if_true]
      exact ⟨trivial, hrd, hwr, hnx⟩
    · simp only [beq_iff_eq, hempty, if_false]
      exact ⟨trivial, Nat.mod_lt _ hdim, hwr, hnx⟩
  · exact ⟨rfl, hnx, hwr, hnx⟩

/-- A concrete mid-cycle state of a buffer of dimension 3: the consumer has
read one slot, the producer has written past the wrap point. -/
def midRbam3 : xyz_rbam :=
  { dim := 3, rd := 1, wr := 2, next := 0, used := 2, free := 1 }

/-- Witness for C3 at the concrete mid-cycle state `midRbam3`. -/
theorem rbam_bounds_all_ops_witness :
    0 < midRbam3.dim ∧ rbamBounds midRbam3 ∧
      ((∀ dim r0, xyz_rbam_init dim = some r0 → 0 < r0.dim ∧ rbamBounds r0) ∧
        ((xyz_rbam_write midRbam3).2.dim = midRbam3.dim ∧
          rbamBounds (xyz_rbam_write midRbam3).2) ∧
        ((xyz_rbam_read midRbam3).2.dim = midRbam3.dim ∧
          rbamBounds (xyz_rbam_read midRbam3).2) ∧
        ((xyz_rbam_drain midRbam3).2.dim = midRbam3.dim ∧
          rbamBounds (xyz_rbam_drain midRbam3).2)) :=
  ⟨by decide, by decide,
    rbam_bounds_all_ops midRbam3 (by decide) (by decide)⟩

/-- **C4.** `init(dim)` fails exactly when `dim = 0`; for every `dim ≥ 1` it
succeeds and establishes `rd = wr = next = 0`, `used = 0`, `free = dim`, and
in that fresh state `is_empty()` is `true` and (for `dim > 1`) `is_full()`
is `false`. -/
theorem rbam_init_behavior (dim : Nat) (r0 : xyz_rbam) (h : 1 ≤ dim)
    (hinit : xyz_rbam_init dim = some r0) :
    (∀ d : Nat, xyz_rbam_init d = none ↔ d = 0) ∧
    r0.dim = dim ∧ r0.rd = 0 ∧ r0.wr = 0 ∧ r0.next = 0 ∧ r0.used = 0 ∧
    r0.free = dim ∧
    xyz_rbam_is_empty r0 = true ∧
    (1 < dim → xyz_rbam_is_full r0 = false) := by
  have hr0 : r0 = freshRbam dim := by
    rw [init_eq_fresh h] at hinit
    exact (Option.some.injEq _ _ ▸ hinit.symm : _)
  subst hr0
  refine ⟨?_, rfl, rfl, rfl, rfl, rfl, rfl, rfl, ?_⟩
  · intro d
    unfold xyz_rbam_init
    by_cases hd : d = 0 <;> simp [hd]
  · intro hgt
    have hdz : dim ≠ 0 := by omega
    simp [xyz_rbam_is_full, freshRbam, hdz]

/-- Witness for C4 at the concrete dimension `dim = 7`. -/
theorem rbam_init_behavior_witness :
    1 ≤ 7 ∧ xyz_rbam_init 7 = some (freshRbam 7) ∧
      ((∀ d : Nat, xyz_rbam_init d = none ↔ d = 0) ∧
        (freshRbam 7).dim = 7 ∧ (freshRbam 7).rd = 0 ∧ (freshRbam 7).wr = 0 ∧
        (freshRbam 7).next = 0 ∧ (freshRbam 7).used = 0 ∧
        (freshRbam 7).free = 7 ∧
        xyz_rbam_is_empty (freshRbam 7) = true ∧
        (1 < 7 → xyz_rbam_is_full (freshRbam 7) = false)) :=
  ⟨by decide, by decide,
    rbam_init_behavior 7 (freshRbam 7) (by decide) (by decide)⟩

/-- **C5.** For every RBAM with `dim ≥ 1` and every index, `next(index)`
computes `(index + 1) mod dim` and `prev(index)` computes
`(index - 1 + dim) mod dim` (stated over the integers, where the `- 1` of
the spec is literal); both are modelled as pure functions that return only
the computed index, so neither mutates any field of the state. -/
theorem rbam_next_prev_formulas (r : xyz_rbam) (i : Nat) (h : 0 < r.dim) :
    xyz_rbam_next r i = (i + 1) % r.dim ∧
    ((xyz_rbam_prev r i : Nat) : Int) =
      ((i : Int) - 1 + (r.dim : Int)) % (r.dim : Int) := by
  refine ⟨rfl, ?_⟩
  unfold xyz_rbam_prev
  rw [Int.natCast_mod]
  congr 1
  omega

/-- Witness for C5 at the fresh state of dimension 5 and index 7. -/
theorem rbam_next_prev_formulas_witness :
    0 < (freshRbam 5).dim ∧
      (xyz_rbam_next (freshRbam 5) 7 = (7 + 1) % (freshRbam 5).dim ∧
        ((xyz_rbam_prev (freshRbam 5) 7 : Nat) : Int) =
          ((7 : Int) - 1 + ((freshRbam 5).dim : Int)) %
            ((freshRbam 5).dim : Int)) :=
  ⟨by decide, rbam_next_prev_formulas (freshRbam 5) 7 (by decide)⟩

/-- **C6.** For every RBAM with `dim ≥ 1` and every valid index
`i ∈ [0, dim)`, `next(prev(i)) = i` and `prev(next(i)) = i`. -/
theorem rbam_next_prev_roundtrip (r : xyz_rbam) (i : Nat) (hi : i < r.dim) :
    xyz_rbam_next r (xyz_rbam_prev r i) = i ∧
    xyz_rbam_prev r (xyz_rbam_next r i) = i := by
  have hd : 0 < r.dim := Nat.lt_of_le_of_lt (Nat.zero_le i) hi
  unfold xyz_rbam_next xyz_rbam_prev
  constructor
  · rcases Nat.eq_zero_or_pos i with h0 | hpos
    · subst h0
      have e1 : 0 + r.dim - 1 = r.dim - 1 := by omega
      rw [e1, Nat.mod_eq_of_lt (show r.dim - 1 < r.dim by omega)]
      have e2 : r.dim - 1 + 1 = r.dim := by omega
      rw [e2, Nat.mod_self]
    · have e1 : i + r.dim - 1 = (i - 1) + r.dim := by omega
      rw [e1, Nat.add_mod_right,
        Nat.mod_eq_of_lt (show i - 1 < r.dim by omega)]
      have e2 : i - 1 + 1 = i := by omega
      rw [e2, Nat.mod_eq_of_lt hi]
  · by_cases hlast : i + 1 = r.dim
    · rw [hlast, Nat.mod_self]
      have e1 : 0 + r.dim - 1 = r.dim - 1 := by omega
      rw [e1, Nat.mod_eq_of_lt (show r.dim - 1 < r.dim by omega)]
      omega
    · rw [Nat.mod_eq_of_lt (show i + 1 < r.dim by omega)]
      have e1 : i + 1 + r.dim - 1 = i + r.dim := by omega
      rw [e1, Nat.add_mod_right, Nat.mod_eq_of_lt hi]

/-- Witness for C6 at the fresh state of dimension 5 and index 2. -/
theorem rbam_next_prev_roundtrip_witness :
    2 < (freshRbam 5).dim ∧
      (xyz_rbam_next (freshRbam 5) (xyz_rbam_prev (freshRbam 5) 2) = 2 ∧
        xyz_rbam_prev (freshRbam 5) (xyz_rbam_next (freshRbam 5) 2) = 2) :=
  ⟨by decide, rbam_next_prev_roundtrip (freshRbam 5) 2 (by decide)⟩

/-- **C7.** On every RBAM state satisfying the reachable-state invariant,
`drain()` returns the exact number of pending unread slots, advances `rd`
to the current write frontier in a single call, leaves the buffer with
`is_empty()` true, and on an already-empty buffer returns `0` with the
state unchanged. -/
theorem rbam_drain_behavior (r : xyz_rbam) (hinv : rbamInv r) :
    (xyz_rbam_drain r).1 = r.used ∧
    (xyz_rbam_drain r).2.rd = r.next ∧
    xyz_rbam_is_empty (xyz_rbam_drain r).2 = true ∧
    (xyz_rbam_is_empty r = true → xyz_rbam_drain r = (0, r)) := by
  obtain ⟨hd, ⟨hrd, hwr, hnx⟩, hsum, hgeo⟩ := hinv
  refine ⟨rfl, rfl, rfl, ?_⟩
  intro he
  simp only [xyz_rbam_is_empty, beq_iff_eq] at he
  rcases r with ⟨dim, rd, wr, nx, used, free⟩
  simp only at he hgeo hrd hsum hd
  subst he
  have hnext : nx = rd := by
    rw [hgeo, Nat.add_zero, Nat.mod_eq_of_lt hrd]
  have hfree : free = dim := by omega
  subst hnext
  subst hfree
  rfl

/-- Witness for C7 at the concrete mid-cycle state `midRbam3`. -/
theorem rbam_drain_behavior_witness :
    rbamInv midRbam3 ∧
      ((xyz_rbam_drain midRbam3).1 = midRbam3.used ∧
        (xyz_rbam_drain midRbam3).2.rd = midRbam3.next ∧
        xyz_rbam_is_empty (xyz_rbam_drain midRbam3).2 = true ∧
        (xyz_rbam_is_empty midRbam3 = true →
          xyz_rbam_drain midRbam3 = (0, midRbam3))) :=
  ⟨by decide, rbam_drain_behavior midRbam3 (by decide)⟩

/-- **C8.** The counter equation `used + free = dim` holds after `init` and
is preserved by every state-changing operation (`write`, `read`, `drain`),
whether the operation succeeds or fails. -/
theorem rbam_used_free_sum (r : xyz_rbam) (hsum : r.used + r.free = r.dim) :
    (∀ dim r0, xyz_rbam_init dim = some r0 →
      r0.used + r0.free = r0.dim) ∧
    (xyz_rbam_write r).2.used + (xyz_rbam_write r).2.free =
      (xyz_rbam_write r).2.dim ∧
    (xyz_rbam_read r).2.used + (xyz_rbam_read r).2.free =
      (xyz_rbam_read r).2.dim ∧
    (xyz_rbam_drain r).2.used + (xyz_rbam_drain r).2.free =
      (xyz_rbam_drain r).2.dim := by
  refine ⟨?_, ?_, ?_, ?_⟩
  · intro dim r0 hinit
    obtain ⟨-, -, hs, -⟩ := rbamInv_init dim r0 hinit
    exact hs
  · unfold xyz_rbam_write xyz_rbam_is_full xyz_rbam_next
    by_cases hfull : r.free = 0
    · simp only [hfull, beq_self_eq_true, if_true]
      omega
    · simp only [beq_iff_eq, hfull, if_false]
      show r.used + 1 + (r.free - 1) = r.dim
      omega
  · unfold xyz_rbam_read xyz_rbam_is_empty xyz_rbam_next
    by_cases hempty : r.used = 0
    · simp only [hempty, beq_self_eq_true, if_true]
      omega
    · simp only [beq_iff_eq, hempty, if_false]
      show r.used - 1 + (r.free + 1) = r.dim
      omega
  · show (0 : Nat) + r.dim = r.dim
    omega

/-- Witness for C8 at the fresh state of dimension 3. -/
theorem rbam_used_free_sum_witness :
    (freshRbam 3).used + (freshRbam 3).free = (freshRbam 3).dim ∧
      ((∀ dim r0, xyz_rbam_init dim = some r0 →
          r0.used + r0.free = r0.dim) ∧
        (xyz_rbam_write (freshRbam 3)).2.used +
            (xyz_rbam_write (freshRbam 3)).2.free =
          (xyz_rbam_write (freshRbam 3)).2.dim ∧
        (xyz_rbam_read (freshRbam 3)).2.used +
            (xyz_rbam_read (freshRbam 3)).2.free =
          (xyz_rbam_read (freshRbam 3)).2.dim ∧
        (xyz_rbam_drain (freshRbam 3)).2.used +
            (xyz_rbam_drain (freshRbam 3)).2.free =
          (xyz_rbam_drain (freshRbam 3)).2.dim) :=
  ⟨by decide, rbam_used_free_sum (freshRbam 3) (by decide)⟩

/-- **C9.** The error code `XYZ_ERR = -1`, returned through the `u32` return
type of the RBAM operations, is `2^32 - 1 = 4294967295`; every valid slot
index is below `dim`, and since `dim` itself is a `u32` (`dim < 2^32`), a
successful `write()` or `read()` result can never coincide with the error
value. -/
theorem rbam_err_not_index (r : xyz_rbam) (hinv : rbamInv r)
    (hdim : r.dim < 2 ^ 32) :
    xyzErrAsU32 = 2 ^ 32 - 1 ∧ xyzErrAsU32 = 4294967295 ∧
    (∀ i, i < r.dim → i ≠ xyzErrAsU32) ∧
    (∀ i, (xyz_rbam_write r).1 = some i → i < r.dim ∧ i ≠ xyzErrAsU32) ∧
    (∀ i, (xyz_rbam_read r).1 = some i → i < r.dim ∧ i ≠ xyzErrAsU32) := by
  obtain ⟨hd, ⟨hrd, hwr, hnx⟩, hsum, hgeo⟩ := hinv
  have herr : xyzErrAsU32 = 4294967295 := by decide
  have hdim32 : r.dim < 4294967296 := by
    have : (2 : Nat) ^ 32 = 4294967296 := by norm_num
    omega
  refine ⟨by rw [herr]; norm_num, herr, ?_, ?_, ?_⟩
  · intro i hi
    rw [herr]
    omega
  · intro i hw
    unfold xyz_rbam_write xyz_rbam_is_full at hw
    by_cases hfull : r.free = 0
    · simp [hfull] at hw
    · simp only [beq_iff_eq, hfull, if_false, Option.some.injEq] at hw
      rw [herr]
      omega
  · intro i hr
    unfold xyz_rbam_read xyz_rbam_is_empty at hr
    by_cases hempty : r.used = 0
    · simp [hempty] at hr
    · simp only [beq_iff_eq, hempty, if_false, Option.some.injEq] at hr
      rw [herr]
      omega

/-- Witness for C9 at the fresh state of dimension 2. -/
theorem rbam_err_not_index_witness :
    rbamInv (freshRbam 2) ∧ (freshRbam 2).dim < 2 ^ 32 ∧
      (xyzErrAsU32 = 2 ^ 32 - 1 ∧ xyzErrAsU32 = 4294967295 ∧
        (∀ i, i < (freshRbam 2).dim → i ≠ xyzErrAsU32) ∧
        (∀ i, (xyz_rbam_write (freshRbam 2)).1 = some i →
          i < (freshRbam 2).dim ∧ i ≠ xyzErrAsU32) ∧
        (∀ i, (xyz_rbam_read (freshRbam 2)).1 = some i →
          i < (freshRbam 2).dim ∧ i ≠ xyzErrAsU32)) :=
  ⟨by decide, by decide,
    rbam_err_not_index (freshRbam 2) (by decide) (by decide)⟩
